import Mathlib

/-!
Shallow embedding of the questions-API core (`src/main.py`):
the startup Duplicate Collapser, the three matchers
(semantic `check-similarity`, lexical `check-similarity-2`,
word-overlap `check-words`), and the create/delete endpoints.

The Question Store is modelled as a list of documents in insertion
order (the store's scan and grouping order, per the store contract).
Object identifiers are modelled as naturals, timestamps as naturals,
similarity/relevance scores as rationals.
-/

namespace QuestionsApi

/-- A stored question document: `_id`, `text`, `created_at`. -/
structure QDoc where
  id : Nat
  text : String
  created_at : Nat
  deriving DecidableEq, Repr

/-! ## Duplicate Collapser (`startup_db_client`, main.py lines 32-47)

The aggregation pipeline groups documents by `text`, collecting the
ids of each group (in the store's natural insertion order) and keeping
only groups with count > 1.  The loop body then pops the first id of
each group and issues `delete_many` on the remaining ids of that group.
-/

/-- The distinct `text` values, in order of first occurrence
(`$group` keyed by `$text`). -/
def groupTexts (corpus : List QDoc) : List String :=
  (corpus.map QDoc.text).dedup

/-- The ids of the documents having text `t`, in insertion order
(the `duplicate_ids` accumulator of the pipeline). -/
def groupIds (corpus : List QDoc) (t : String) : List Nat :=
  (corpus.filter (fun d => d.text == t)).map QDoc.id

/-- The pipeline output: one `(text, duplicate_ids)` entry per text
occurring more than once (`$match count > 1`). -/
def duplicateGroups (corpus : List QDoc) : List (String × List Nat) :=
  (groupTexts corpus).filterMap (fun t =>
    if (groupIds corpus t).length > 1 then some (t, groupIds corpus t) else none)

/-- `delete_many({"_id": {"$in": ids}})`: remove every document whose id
lies in `ids`. -/
def deleteMany (corpus : List QDoc) (ids : List Nat) : List QDoc :=
  corpus.filter (fun d => decide (d.id ∉ ids))

/-- The `async for doc in cursor` loop: for each group, drop the first id
(`duplicate_ids.pop(0)`) and delete the rest.  Returns the final corpus
together with the list of id-batches passed to `delete_many`, one batch
per loop iteration. -/
def collapseRun : List QDoc → List (String × List Nat) → List QDoc × List (List Nat)
  | corpus, [] => (corpus, [])
  | corpus, g :: rest =>
    let out := collapseRun (deleteMany corpus g.2.tail) rest
    (out.1, g.2.tail :: out.2)

/-- The corpus after the Duplicate Collapser has run. -/
def collapse (corpus : List QDoc) : List QDoc :=
  (collapseRun corpus (duplicateGroups corpus)).1

/-- The deletion batches the Duplicate Collapser issues: the argument of
each `delete_many` call, in order. -/
def collapseBatches (corpus : List QDoc) : List (List Nat) :=
  (collapseRun corpus (duplicateGroups corpus)).2

/-- All ids marked for deletion across the groups. -/
def markedIds (gs : List (String × List Nat)) : List Nat :=
  (gs.map (fun g => g.2.tail)).flatten

/-! ### Collapser lemmas -/

lemma mem_markedIds {gs : List (String × List Nat)} {i : Nat} :
    i ∈ markedIds gs ↔ ∃ g ∈ gs, i ∈ g.2.tail := by
  simp only [markedIds, List.mem_flatten, List.mem_map]
  constructor
  · rintro ⟨l, ⟨g, hg, rfl⟩, hi⟩
    exact ⟨g, hg, hi⟩
  · rintro ⟨g, hg, hi⟩
    exact ⟨g.2.tail, ⟨g, hg, rfl⟩, hi⟩

lemma collapseRun_snd (gs : List (String × List Nat)) (corpus : List QDoc) :
    (collapseRun corpus gs).2 = gs.map (fun g => g.2.tail) := by
  induction gs generalizing corpus with
  | nil => rfl
  | cons g rest ih => simp [collapseRun, ih]

lemma collapseRun_fst (gs : List (String × List Nat)) (corpus : List QDoc) :
    (collapseRun corpus gs).1 = corpus.filter (fun d => decide (d.id ∉ markedIds gs)) := by
  induction gs generalizing corpus with
  | nil =>
    simp [collapseRun, markedIds]
  | cons g rest ih =>
    simp only [collapseRun, ih, deleteMany, List.filter_filter]
    refine List.filter_congr (fun d _ => ?_)
    simp only [markedIds, List.map_cons, List.flatten_cons, List.mem_append]
    by_cases h1 : d.id ∈ g.2.tail <;>
      by_cases h2 : d.id ∈ (rest.map (fun g => g.2.tail)).flatten <;>
        simp [h1, h2]

/-- A group entry is in `duplicateGroups` iff its text occurs in the corpus,
its id list is that text's group, and the group has more than one member. -/
lemma mem_duplicateGroups {corpus : List QDoc} {g : String × List Nat} :
    g ∈ duplicateGroups corpus ↔
      g.1 ∈ groupTexts corpus ∧ g.2 = groupIds corpus g.1 ∧ (groupIds corpus g.1).length > 1 := by
  constructor
  · intro hg
    rcases List.mem_filterMap.mp hg with ⟨t, ht, hf⟩
    by_cases h : (groupIds corpus t).length > 1
    · simp only [h, if_pos] at hf
      cases hf
      exact ⟨ht, rfl, h⟩
    · simp [h] at hf
  · rintro ⟨ht, hids, hlen⟩
    refine List.mem_filterMap.mpr ⟨g.1, ht, ?_⟩
    rw [if_pos hlen, ← hids]

lemma text_mem_groupTexts {corpus : List QDoc} {d : QDoc} (hd : d ∈ corpus) :
    d.text ∈ groupTexts corpus :=
  List.mem_dedup.mpr (List.mem_map.mpr ⟨d, hd, rfl⟩)

lemma mem_groupIds {corpus : List QDoc} {t : String} {i : Nat} :
    i ∈ groupIds corpus t ↔ ∃ d ∈ corpus, d.text = t ∧ d.id = i := by
  simp only [groupIds, List.mem_map, List.mem_filter, beq_iff_eq]
  tauto

/-- With pairwise distinct ids, a document's id is marked for deletion iff
it lies in the tail of its own text's group. -/
lemma marked_iff_tail {corpus : List QDoc} (hn : (corpus.map QDoc.id).Nodup)
    {d : QDoc} (hd : d ∈ corpus) :
    d.id ∈ markedIds (duplicateGroups corpus) ↔ d.id ∈ (groupIds corpus d.text).tail := by
  constructor
  · intro h
    rcases mem_markedIds.mp h with ⟨g, hg, hi⟩
    rcases mem_duplicateGroups.mp hg with ⟨-, hids, -⟩
    have hmem : d.id ∈ groupIds corpus g.1 := by
      rw [← hids]; exact List.mem_of_mem_tail hi
    rcases mem_groupIds.mp hmem with ⟨e, he, het, heid⟩
    have hed : e = d := List.inj_on_of_nodup_map hn he hd heid
    subst hed
    rw [het, ← hids]
    exact hi
  · intro h
    have hlen : (groupIds corpus d.text).length > 1 := by
      rcases hx : groupIds corpus d.text with _ | ⟨a, _ | ⟨b, l⟩⟩
      · rw [hx] at h; simp at h
      · rw [hx] at h; simp at h
      · simp
    exact mem_markedIds.mpr ⟨(d.text, groupIds corpus d.text),
      mem_duplicateGroups.mpr ⟨text_mem_groupTexts hd, rfl, hlen⟩, h⟩

/-- The group of text `t` is exactly the ids of the corpus filtered to `t`. -/
lemma groupIds_eq_map_filter (corpus : List QDoc) (t : String) :
    groupIds corpus t = (corpus.filter (fun d => d.text == t)).map QDoc.id := rfl

/-- Core list fact: filtering a list with distinct ids down to the ids not in
the tail of its own id list keeps exactly the head. -/
lemma filter_not_tail_eq_take_one (l : List QDoc) (hn : (l.map QDoc.id).Nodup) :
    l.filter (fun d => decide (d.id ∉ (l.map QDoc.id).tail)) = l.take 1 := by
  cases l with
  | nil => rfl
  | cons h rest =>
    simp only [List.map_cons, List.nodup_cons, List.mem_map] at hn
    obtain ⟨hh, -⟩ := hn
    simp only [List.map_cons, List.tail_cons, List.take_succ_cons, List.take_zero,
      List.filter_cons]
    have hhead : (decide (h.id ∉ rest.map QDoc.id)) = true := by
      simp only [decide_eq_true_eq, List.mem_map]
      rintro ⟨e, he, heid⟩
      exact hh ⟨e, he, heid⟩
    rw [if_pos hhead]
    congr 1
    rw [List.filter_eq_nil_iff]
    intro d hd
    simp only [decide_eq_true_eq, not_not, List.mem_map]
    exact ⟨d, hd, rfl⟩

/-- Central characterisation: after the collapser, the records with a given
text are exactly the first-inserted record with that text. -/
lemma collapse_filter_text (corpus : List QDoc) (hn : (corpus.map QDoc.id).Nodup)
    (t : String) :
    (collapse corpus).filter (fun d => d.text == t) =
      (corpus.filter (fun d => d.text == t)).take 1 := by
  rw [collapse, collapseRun_fst, List.filter_filter]
  have hswap :
      corpus.filter (fun d => (d.text == t) && decide (d.id ∉ markedIds (duplicateGroups corpus)))
        = corpus.filter
            (fun d => decide (d.id ∉ markedIds (duplicateGroups corpus)) && (d.text == t)) :=
    List.filter_congr (fun d _ => Bool.and_comm _ _)
  rw [hswap, ← List.filter_filter]
  set l := corpus.filter (fun d => d.text == t) with hl
  have hsub : l.Sublist corpus := List.filter_sublist corpus
  have hnl : (l.map QDoc.id).Nodup := (hsub.map QDoc.id).nodup hn
  have hstep : l.filter (fun d => decide (d.id ∉ markedIds (duplicateGroups corpus)))
      = l.filter (fun d => decide (d.id ∉ (l.map QDoc.id).tail)) := by
    refine List.filter_congr (fun d hd => ?_)
    have hdc : d ∈ corpus := hsub.mem hd
    have hdt : d.text = t := by
      have := (List.mem_filter.mp (hl ▸ hd)).2
      exact eq_of_beq this
    have := marked_iff_tail hn hdc
    rw [hdt, groupIds_eq_map_filter, ← hl] at this
    simp only [decide_eq_decide]
    exact not_congr this
  rw [hstep]
  exact filter_not_tail_eq_take_one l hnl

/-- After collapsing, every text group has at most one member, so the
pipeline of a second run yields no duplicate group at all. -/
lemma duplicateGroups_collapse_eq_nil (corpus : List QDoc)
    (hn : (corpus.map QDoc.id).Nodup) :
    duplicateGroups (collapse corpus) = [] := by
  rw [duplicateGroups, List.filterMap_eq_nil_iff]
  intro t ht
  rw [if_neg]
  have hlen : (groupIds (collapse corpus) t).length ≤ 1 := by
    rw [groupIds_eq_map_filter, List.length_map, collapse_filter_text corpus hn t]
    exact le_trans (List.length_take_le 1 _) (le_refl 1)
  omega

/-- A four-document corpus with two duplicate texts, used as concrete input. -/
def exCorpus : List QDoc :=
  [⟨1, "a", 1⟩, ⟨2, "a", 2⟩, ⟨3, "b", 3⟩, ⟨4, "b", 4⟩]

/-- A three-document corpus with one duplicated text. -/
def exCorpus2 : List QDoc :=
  [⟨1, "What is a black hole?", 10⟩, ⟨2, "What is a black hole?", 20⟩,
   ⟨3, "How do black holes form?", 30⟩]

/-- C1: after the Duplicate Collapser runs, the records sharing any given
text are exactly the first-inserted record with that text (one survivor
per distinct text, the earliest in insertion order). -/
theorem collapse_keeps_first_per_text (corpus : List QDoc)
    (hn : (corpus.map QDoc.id).Nodup) (t : String) :
    (collapse corpus).filter (fun d => d.text == t) =
      (corpus.filter (fun d => d.text == t)).take 1 :=
  collapse_filter_text corpus hn t

/-- C1 witness: on the black-hole corpus the surviving record with the
duplicated text is the first-inserted one (id 1). -/
theorem collapse_keeps_first_per_text_witness :
    (exCorpus2.map QDoc.id).Nodup ∧
      (collapse exCorpus2).filter (fun d => d.text == "What is a black hole?") =
        (exCorpus2.filter (fun d => d.text == "What is a black hole?")).take 1 :=
  ⟨by decide, collapse_keeps_first_per_text exCorpus2 (by decide) "What is a black hole?"⟩

/-- C2: the Duplicate Collapser is idempotent — a second run leaves the
corpus unchanged and issues no deletion at all. -/
theorem collapse_idempotent (corpus : List QDoc)
    (hn : (corpus.map QDoc.id).Nodup) :
    collapse (collapse corpus) = collapse corpus ∧
      collapseBatches (collapse corpus) = [] := by
  constructor
  · show (collapseRun (collapse corpus) (duplicateGroups (collapse corpus))).1 = collapse corpus
    rw [duplicateGroups_collapse_eq_nil corpus hn]
    rfl
  · show (collapseRun (collapse corpus) (duplicateGroups (collapse corpus))).2 = []
    rw [duplicateGroups_collapse_eq_nil corpus hn]
    rfl

/-- C2 witness: idempotence on the concrete duplicate-bearing corpus. -/
theorem collapse_idempotent_witness :
    (exCorpus.map QDoc.id).Nodup ∧
      (collapse (collapse exCorpus) = collapse exCorpus ∧
        collapseBatches (collapse exCorpus) = []) :=
  ⟨by decide, collapse_idempotent exCorpus (by decide)⟩

/-- C3 counterexample: on a corpus with two duplicate groups the collapser
issues two `delete_many` batches, not a single bulk deletion covering all
marked identifiers. -/
theorem collapse_not_single_bulk_deletion :
    collapseBatches exCorpus ≠ [markedIds (duplicateGroups exCorpus)] ∧
      collapseBatches exCorpus = [[2], [4]] ∧
      markedIds (duplicateGroups exCorpus) = [2, 4] := by
  decide

/-- C3 (amended): the collapser issues one bulk deletion per duplicate
group — each batch being that group's ids minus the first — and the
concatenation of these per-group batches covers exactly all marked
identifiers across all groups. -/
theorem collapse_bulk_deletion_per_group (corpus : List QDoc) :
    collapseBatches corpus = (duplicateGroups corpus).map (fun g => g.2.tail) ∧
      (collapseBatches corpus).flatten = markedIds (duplicateGroups corpus) := by
  refine ⟨collapseRun_snd _ _, ?_⟩
  rw [collapseBatches, collapseRun_snd]
  rfl

/-! ## Semantic matcher (`check-similarity`, main.py lines 82-103)

The spaCy embedder is an external collaborator; it is modelled as an
arbitrary pairwise similarity function `sim : String → String → ℚ` on
texts.  The endpoint embeds the input once and compares it with every
stored text, keeping matches with `similarity > 0.7` and reporting
`round(similarity * 100, 2)` as the score. -/

/-- A per-query match value as built by `check_similarity`. -/
structure MatchResult where
  id : String
  text : String
  created_at : Nat
  score : ℚ
  deriving DecidableEq, Repr

/-- `round(x, 2)`: round to 2 decimal places. -/
def round2 (x : ℚ) : ℚ := (round (x * 100) : ℤ) / 100

/-- The result dict appended for a matching stored question. -/
def simResult (sim : String → String → ℚ) (input : String) (q : QDoc) : MatchResult :=
  { id := toString q.id, text := q.text, created_at := q.created_at,
    score := round2 (sim input q.text * 100) }

/-- `check_similarity`: scan the corpus, keep questions whose similarity
with the input strictly exceeds 0.7, and return the list together with
its length (`similarity_count`). -/
def checkSimilarity (sim : String → String → ℚ) (corpus : List QDoc) (input : String) :
    List MatchResult × Nat :=
  let similar := corpus.filterMap (fun q =>
    if sim input q.text > 7 / 10 then some (simResult sim input q) else none)
  (similar, similar.length)

/-! ## Lexical matcher (`check-similarity-2`, main.py lines 105-122)

The MongoDB `$text` search is an external collaborator; the endpoint is
modelled on the list of scored hits the store's cursor yields.  Each hit
may carry a relevance score (`score` metadata field) or not
(`doc.get("score", 0)` defaults to 0). -/

/-- A hit yielded by the store's text-search cursor. -/
structure SearchDoc where
  id : Nat
  text : String
  created_at : Nat
  score : Option ℚ
  deriving DecidableEq, Repr

/-- A hit after its ObjectId is converted to a string for the response. -/
structure SearchDocOut where
  id : String
  text : String
  created_at : Nat
  score : Option ℚ
  deriving DecidableEq, Repr

/-- `doc["_id"] = str(doc["_id"])`: stringify the id, keep the rest. -/
def strDoc (d : SearchDoc) : SearchDocOut :=
  { id := toString d.id, text := d.text, created_at := d.created_at, score := d.score }

/-- The second `check_similarity` endpoint: keep the hits whose score
(defaulting to 0 when absent) strictly exceeds 2.5, stringify their ids,
and return them with their count. -/
def checkSimilarity2 (hits : List SearchDoc) : List SearchDocOut × Nat :=
  let filtered := hits.filterMap (fun d =>
    if d.score.getD 0 > 5 / 2 then some (strDoc d) else none)
  (filtered, filtered.length)

/-! ## Word-overlap counter (`check-words`, main.py lines 124-139) -/

/-- Helper for `tokens`: split a character list at whitespace runs,
accumulating the current word reversed.  Mirrors Python `str.split()`
with no argument: maximal non-whitespace runs, no empty tokens. -/
def splitTokens : List Char → List Char → List (List Char)
  | [], acc => if acc.isEmpty then [] else [acc.reverse]
  | c :: cs, acc =>
    if c.isWhitespace then
      if acc.isEmpty then splitTokens cs [] else acc.reverse :: splitTokens cs []
    else splitTokens cs (c :: acc)

/-- Python `text.split()` followed by `word.lower()`: whitespace-delimited
tokens, empty tokens dropped, each lower-cased. -/
def tokens (s : String) : List String :=
  (splitTokens s.data []).map (fun cs => String.mk (cs.map Char.toLower))

/-- The set of lower-cased tokens of a text. -/
def wordSet (s : String) : Finset String := (tokens s).toFinset

/-- `check_words`: count the stored questions sharing at least one
lower-cased token with the input. -/
def checkWords (corpus : List QDoc) (input : String) : Nat :=
  (corpus.filter (fun q => decide (wordSet input ∩ wordSet q.text ≠ ∅))).length

/-! ## Create / delete endpoints (main.py lines 53-75) -/

/-- The response model of `create_question` (id stringified). -/
structure Question where
  id : String
  text : String
  created_at : Nat
  deriving DecidableEq, Repr

/-- `create_question`: read the current document count (unused), insert
the new record, and return the created question with the new corpus. -/
def createQuestion (corpus : List QDoc) (text : String) (now : Nat) (newId : Nat) :
    Question × List QDoc :=
  let _count := corpus.length
  ({ id := toString newId, text := text, created_at := now },
    corpus ++ [{ id := newId, text := text, created_at := now }])

/-- `delete_one({"_id": qid})`: remove the first document with the given
id, returning the remaining corpus and the deleted count (0 or 1). -/
def deleteOne : List QDoc → Nat → List QDoc × Nat
  | [], _ => ([], 0)
  | d :: rest, qid =>
    if d.id = qid then (rest, 1)
    else (d :: (deleteOne rest qid).1, (deleteOne rest qid).2)

/-- `delete_question`: raise 404 when the deletion count is 0, otherwise
report success. -/
def deleteQuestion (corpus : List QDoc) (qid : Nat) :
    Except (Nat × String) (String × List QDoc) :=
  if (deleteOne corpus qid).2 = 0 then Except.error (404, "Question not found")
  else Except.ok ("Question deleted successfully", (deleteOne corpus qid).1)

/-! ### Matcher and endpoint lemmas -/

lemma checkSimilarity_fst (sim : String → String → ℚ) (corpus : List QDoc) (input : String) :
    (checkSimilarity sim corpus input).1 =
      corpus.filterMap (fun q =>
        if sim input q.text > 7 / 10 then some (simResult sim input q) else none) := rfl

lemma checkSimilarity2_fst (hits : List SearchDoc) :
    (checkSimilarity2 hits).1 =
      hits.filterMap (fun d => if d.score.getD 0 > 5 / 2 then some (strDoc d) else none) := rfl

lemma filterMap_ite_eq_map_filter {α β : Type} (p : α → Prop) [DecidablePred p] (f : α → β)
    (l : List α) :
    l.filterMap (fun a => if p a then some (f a) else none)
      = (l.filter (fun a => decide (p a))).map f := by
  induction l with
  | nil => rfl
  | cons a t ih =>
    by_cases hp : p a <;>
      simp [List.filterMap_cons, List.filter_cons, hp, ih]

lemma deleteOne_count_eq_zero (corpus : List QDoc) (qid : Nat) :
    (deleteOne corpus qid).2 = 0 ↔ ∀ d ∈ corpus, d.id ≠ qid := by
  induction corpus with
  | nil => simp [deleteOne]
  | cons d rest ih =>
    by_cases h : d.id = qid
    · simp [deleteOne, h]
    · simp only [deleteOne, if_neg h, ih, List.mem_cons]
      constructor
      · rintro hall e (rfl | he)
        · exact h
        · exact hall e he
      · intro hall e he
        exact hall e (Or.inr he)

/-! ### Claim theorems for the matchers and endpoints -/

/-- A deterministic stub embedder used for concrete witnesses. -/
def simStub : String → String → ℚ := fun _ _ => 1

/-- A concrete input text used in witnesses. -/
def inpX : String := "x"

/-- A concrete stored question used for concrete witnesses. -/
def q0 : QDoc := ⟨1, "hello", 5⟩

/-- C4: `check-similarity` includes a stored question iff the computed
similarity strictly exceeds 0.7; a similarity of exactly 0.7 is excluded. -/
theorem semantic_threshold_strict (sim : String → String → ℚ) (corpus : List QDoc)
    (input : String) (q : QDoc) (hq : q ∈ corpus) :
    (simResult sim input q ∈ (checkSimilarity sim corpus input).1 ↔
        sim input q.text > 7 / 10) ∧
      (sim input q.text = 7 / 10 →
        simResult sim input q ∉ (checkSimilarity sim corpus input).1) := by
  have hmain : simResult sim input q ∈ (checkSimilarity sim corpus input).1 ↔
      sim input q.text > 7 / 10 := by
    rw [checkSimilarity_fst]
    constructor
    · intro hr
      rcases List.mem_filterMap.mp hr with ⟨a, _, hfa⟩
      by_cases h : sim input a.text > 7 / 10
      · rw [if_pos h] at hfa
        have htext : a.text = q.text := congrArg MatchResult.text (Option.some.inj hfa)
        rwa [htext] at h
      · rw [if_neg h] at hfa
        cases hfa
    · intro h
      exact List.mem_filterMap.mpr ⟨q, hq, by rw [if_pos h]⟩
  refine ⟨hmain, fun heq hr => ?_⟩
  have := hmain.mp hr
  rw [heq] at this
  exact lt_irrefl _ this

/-- C4 witness: with a constant-similarity-1 stub embedder, the stored
question is included, and the threshold clauses hold at this input. -/
theorem semantic_threshold_strict_witness :
    q0 ∈ [q0] ∧
      ((simResult simStub inpX q0 ∈ (checkSimilarity simStub [q0] inpX).1 ↔
          simStub inpX q0.text > 7 / 10) ∧
        (simStub inpX q0.text = 7 / 10 →
          simResult simStub inpX q0 ∉ (checkSimilarity simStub [q0] inpX).1)) :=
  ⟨List.mem_singleton_self q0, semantic_threshold_strict simStub [q0] inpX q0
    (List.mem_singleton_self q0)⟩

/-- C5: every reported semantic match carries score
`round(similarity * 100, 2)` for the similarity computed on its text. -/
theorem semantic_score_rounded (sim : String → String → ℚ) (corpus : List QDoc)
    (input : String) (r : MatchResult)
    (hr : r ∈ (checkSimilarity sim corpus input).1) :
    r.score = round2 (sim input r.text * 100) := by
  rw [checkSimilarity_fst] at hr
  rcases List.mem_filterMap.mp hr with ⟨a, _, hfa⟩
  by_cases h : sim input a.text > 7 / 10
  · rw [if_pos h] at hfa
    cases Option.some.inj hfa
    rfl
  · rw [if_neg h] at hfa
    cases hfa

/-- C5 witness: the concrete match of the stub embedder reports score
`round2 (1 * 100)`. -/
theorem semantic_score_rounded_witness :
    simResult simStub inpX q0 ∈ (checkSimilarity simStub [q0] inpX).1 ∧
      (simResult simStub inpX q0).score =
        round2 (simStub inpX (simResult simStub inpX q0).text * 100) := by
  have hr : simResult simStub inpX q0 ∈ (checkSimilarity simStub [q0] inpX).1 := by
    rw [checkSimilarity_fst]
    simp only [List.filterMap_cons, List.filterMap_nil, simStub]
    norm_num
  exact ⟨hr, semantic_score_rounded simStub [q0] inpX _ hr⟩

/-- C6: `check-similarity-2` returns exactly the text-search hits whose
score strictly exceeds 2.5; a hit with no score field counts as 0 and is
excluded. -/
theorem lexical_threshold_strict (hits : List SearchDoc) (d : SearchDoc)
    (hd : d ∈ hits) :
    ((checkSimilarity2 hits).1 =
        (hits.filter (fun x => decide (x.score.getD 0 > 5 / 2))).map strDoc) ∧
      (strDoc d ∈ (checkSimilarity2 hits).1 ↔ d.score.getD 0 > 5 / 2) ∧
      (d.score = none → strDoc d ∉ (checkSimilarity2 hits).1) := by
  have heq : (checkSimilarity2 hits).1 =
      (hits.filter (fun x => decide (x.score.getD 0 > 5 / 2))).map strDoc := by
    rw [checkSimilarity2_fst]
    exact filterMap_ite_eq_map_filter _ _ _
  have hmem : strDoc d ∈ (checkSimilarity2 hits).1 ↔ d.score.getD 0 > 5 / 2 := by
    rw [checkSimilarity2_fst]
    constructor
    · intro hr
      rcases List.mem_filterMap.mp hr with ⟨a, _, hfa⟩
      by_cases h : a.score.getD 0 > 5 / 2
      · rw [if_pos h] at hfa
        have hsc : a.score = d.score := congrArg SearchDocOut.score (Option.some.inj hfa)
        rwa [hsc] at h
      · rw [if_neg h] at hfa
        cases hfa
    · intro h
      exact List.mem_filterMap.mpr ⟨d, hd, by rw [if_pos h]⟩
  refine ⟨heq, hmem, fun hnone hr => ?_⟩
  have := hmem.mp hr
  rw [hnone] at this
  simp only [Option.getD_none] at this
  have h25 : (0 : ℚ) < 5 / 2 := by norm_num
  exact absurd this (not_lt.mpr (le_of_lt h25))

/-- A concrete text-search hit with score 3.0, used for the C6 witness. -/
def hit0 : SearchDoc := ⟨1, "a", 1, some 3⟩

/-- Concrete search hits used for the C6 witness. -/
def hits0 : List SearchDoc := [hit0, ⟨2, "b", 2, some 2⟩]

/-- C6 witness: of two hits scored 3.0 and 2.0, exactly the score-3.0 hit
survives the 2.5 threshold. -/
theorem lexical_threshold_strict_witness :
    hit0 ∈ hits0 ∧
      (((checkSimilarity2 hits0).1 =
          (hits0.filter (fun x => decide (x.score.getD 0 > 5 / 2))).map strDoc) ∧
        (strDoc hit0 ∈ (checkSimilarity2 hits0).1 ↔ hit0.score.getD 0 > 5 / 2) ∧
        (hit0.score = none → strDoc hit0 ∉ (checkSimilarity2 hits0).1)) :=
  ⟨by simp [hits0], lexical_threshold_strict hits0 hit0 (by simp [hits0])⟩

/-- C7: `check-words` counts exactly the stored questions whose lower-cased
token set meets the input's token set; each question contributes at most 1,
and an empty input yields count 0. -/
theorem word_overlap_count (corpus : List QDoc) (input : String) :
    (checkWords corpus input =
        corpus.countP (fun q => decide (∃ w ∈ tokens input, w ∈ tokens q.text))) ∧
      checkWords corpus input ≤ corpus.length ∧
      checkWords corpus ("") = 0 := by
  refine ⟨?_, ?_, ?_⟩
  · rw [checkWords, List.countP_eq_length_filter]
    congr 1
    refine List.filter_congr (fun q _ => ?_)
    simp only [decide_eq_decide]
    rw [← Finset.nonempty_iff_ne_empty]
    constructor
    · rintro ⟨w, hw⟩
      rcases Finset.mem_inter.mp hw with ⟨h1, h2⟩
      exact ⟨w, List.mem_toFinset.mp h1, List.mem_toFinset.mp h2⟩
    · rintro ⟨w, h1, h2⟩
      exact ⟨w, Finset.mem_inter.mpr ⟨List.mem_toFinset.mpr h1, List.mem_toFinset.mpr h2⟩⟩
  · exact List.length_filter_le _ _
  · have ht : tokens ("") = [] := rfl
    have hws : wordSet ("") = ∅ := by rw [wordSet, ht, List.toFinset_nil]
    have hempty : ∀ q : QDoc, wordSet ("") ∩ wordSet q.text = ∅ := fun q => by
      rw [hws, Finset.empty_inter]
    simp [checkWords, hempty]

/-- C8: against an empty corpus, all three matchers return an empty result
set and count 0 (the store yields no search hit from an empty corpus). -/
theorem empty_corpus_matchers (sim : String → String → ℚ) (input : String)
    (hits : List SearchDoc)
    (hhits : ∀ d ∈ hits, ∃ q : QDoc, q ∈ ([] : List QDoc) ∧ q.id = d.id) :
    checkSimilarity sim [] input = ([], 0) ∧
      checkSimilarity2 hits = ([], 0) ∧
      checkWords [] input = 0 := by
  have h0 : hits = [] := by
    cases hits with
    | nil => rfl
    | cons d t =>
      rcases hhits d (List.mem_cons_self d t) with ⟨q, hq, -⟩
      exact absurd hq (List.not_mem_nil q)
  subst h0
  exact ⟨rfl, rfl, rfl⟩

/-- C8 witness: the empty corpus and an empty hit list give empty results
and zero counts for all three matchers. -/
theorem empty_corpus_matchers_witness :
    (∀ d ∈ ([] : List SearchDoc), ∃ q : QDoc, q ∈ ([] : List QDoc) ∧ q.id = d.id) ∧
      (checkSimilarity simStub [] inpX = ([], 0) ∧
        checkSimilarity2 [] = ([], 0) ∧
        checkWords [] inpX = 0) :=
  ⟨by simp, empty_corpus_matchers simStub inpX [] (by simp)⟩

/-- C9: `delete_question` answers 404 exactly when no stored question has
the requested id (deleted count 0), and otherwise reports a successful
deletion; a non-existent id is never a silent no-op. -/
theorem delete_question_not_found (corpus : List QDoc) (qid : Nat) :
    (deleteQuestion corpus qid = Except.error (404, "Question not found") ↔
        ∀ d ∈ corpus, d.id ≠ qid) ∧
      (deleteQuestion corpus qid =
          Except.ok ("Question deleted successfully", (deleteOne corpus qid).1) ↔
        ∃ d ∈ corpus, d.id = qid) := by
  have hiff := deleteOne_count_eq_zero corpus qid
  by_cases h : (deleteOne corpus qid).2 = 0
  · have hforall := hiff.mp h
    constructor
    · exact ⟨fun _ => hforall, fun _ => by rw [deleteQuestion, if_pos h]⟩
    · constructor
      · intro hok
        rw [deleteQuestion, if_pos h] at hok
        cases hok
      · rintro ⟨d, hd, hid⟩
        exact absurd hid (hforall d hd)
  · have hex : ∃ d ∈ corpus, d.id = qid := by
      have : ¬ ∀ d ∈ corpus, d.id ≠ qid := fun hall => h (hiff.mpr hall)
      push_neg at this
      exact this
    constructor
    · constructor
      · intro herr
        rw [deleteQuestion, if_neg h] at herr
        cases herr
      · intro hall
        exact absurd (hiff.mpr hall) h
    · exact ⟨fun _ => hex, fun _ => by rw [deleteQuestion, if_neg h]⟩

/-- C10: `create_question` inserts unconditionally — it reads the count
but enforces no corpus-size limit; the new record is appended and returned,
whatever the corpus state. -/
theorem create_question_unconditional (corpus : List QDoc) (text : String)
    (now : Nat) (newId : Nat) :
    (createQuestion corpus text now newId).2 =
        corpus ++ [{ id := newId, text := text, created_at := now }] ∧
      (createQuestion corpus text now newId).1 =
        { id := toString newId, text := text, created_at := now } ∧
      ((createQuestion corpus text now newId).2).length = corpus.length + 1 := by
  refine ⟨rfl, rfl, ?_⟩
  simp [createQuestion]

end QuestionsApi
